import Mathlib

/-!
Verification of the detection-and-generation pipeline in `src/bb/mod.rs`.

The Rust module is shallowly embedded: paths become lists of components,
fallible operations (`anyhow::Result`) become `Except String`, the trait
object `&dyn Builder` becomes a structure of functions, and the external
world touched by `AppBuilder::build` (process spawns, file writes) becomes
an explicit record of outcomes.
-/

/-- A filesystem path, as its list of components (Rust `PathBuf`). -/
abbrev PathBuf := List String

/-- Rust `Path::file_name`: the final path component, or `none` when the path
is empty or terminates in `..` (an empty component also yields `none`). -/
def file_name (p : PathBuf) : Option String :=
  match p.getLast? with
  | none => none
  | some c => if c = ".." ∨ c = "" then none else some c

/-- Rust `Path::join` for a relative single-component name (as produced by
`DirEntry::path()`: the scanned directory joined with the entry's name). -/
def pathJoin (base : PathBuf) (entry : String) : PathBuf :=
  base ++ [entry]

/-- `struct AppSource` (src/bb/mod.rs lines 13-17): the source snapshot,
root path plus captured top-level entry paths. -/
structure AppSource where
  source : PathBuf
  paths : List PathBuf

/-- `AppSource::includes_file` (lines 20-28). The Rust loop computes
`path.file_name().unwrap() == name` per entry; `unwrap` panics when
`file_name` is `None`, which we model as the `none` result. -/
def AppSource.includes_file (app : AppSource) (name : String) : Option Bool :=
  go app.paths
where
  /-- the `for path in &self.paths` loop of `includes_file` -/
  go : List PathBuf → Option Bool
  | [] => some false
  | p :: rest =>
    match file_name p with
    | none => none
    | some f => if f = name then some true else go rest

/-- `trait Builder` (crate::builders::Builder) at its use boundary in
src/bb/mod.rs: `name`, fallible `detect`, `build_inputs` returning a
displayable string, and three fallible optional command producers. -/
structure Builder where
  name : String
  detect : AppSource → Except String Bool
  build_inputs : AppSource → String
  install_cmd : AppSource → Except String (Option String)
  suggested_build_cmd : AppSource → Except String (Option String)
  suggested_start_command : AppSource → Except String (Option String)

/-- `struct AppBuilder` (lines 31-38). -/
structure AppBuilder where
  name : Option String
  app : AppSource
  custom_build_cmd : Option String
  custom_start_cmd : Option String
  pkgs : List String
  builder : Option Builder

/-- A directory-entry name as returned by `fs::read_dir`: never empty and
never the special entries `.` / `..`. -/
def validEntryName (s : String) : Prop :=
  s ≠ "" ∧ s ≠ "." ∧ s ≠ ".."

instance (s : String) : Decidable (validEntryName s) := by
  unfold validEntryName; infer_instance

/-- `AppBuilder::new` (lines 41-60). The `fs::read_dir` outcome is passed in
explicitly: either a directory-listing error or the list of entry names; each
captured path is the source joined with the entry name (`DirEntry::path()`). -/
def AppBuilder.new (name : Option String) (source : PathBuf)
    (custom_build_cmd : Option String) (custom_start_cmd : Option String)
    (pkgs : List String) (dirListing : Except String (List String)) :
    Except String AppBuilder :=
  match dirListing with
  | .error e => .error ("Failed to read app source directory: " ++ e)
  | .ok entries =>
    .ok { name := name
          app := { source := source, paths := entries.map (pathJoin source) }
          custom_build_cmd := custom_build_cmd
          custom_start_cmd := custom_start_cmd
          pkgs := pkgs
          builder := none }

/-- The `for builder in builders` loop of `AppBuilder::detect`
(lines 65-71): first `detect` returning true is selected and the loop
breaks; a `detect` error propagates via `?`. -/
def AppBuilder.detectLoop (app : AppSource) : List Builder → Except String (Option Builder)
  | [] => .ok none
  | b :: rest =>
    match b.detect app with
    | .error e => .error e
    | .ok true => .ok (some b)
    | .ok false => AppBuilder.detectLoop app rest

/-- Instrumentation of the same loop: the names of the builders whose
`detect` is actually invoked before the loop ends (by match, error, or
list exhaustion). -/
def AppBuilder.detectQueried (app : AppSource) : List Builder → List String
  | [] => []
  | b :: rest =>
    match b.detect app with
    | .error _ => [b.name]
    | .ok true => [b.name]
    | .ok false => b.name :: AppBuilder.detectQueried app rest

/-- `AppBuilder::detect` (lines 62-86): run the loop, then if no builder is
set fail exactly when there is no custom start command. -/
def AppBuilder.detect (st : AppBuilder) (builders : List Builder) :
    Except String AppBuilder :=
  match AppBuilder.detectLoop st.app builders with
  | .error e => .error e
  | .ok sel =>
    let st' : AppBuilder :=
      { st with builder := match sel with | some b => some b | none => st.builder }
    match st'.builder with
    | some _ => .ok st'
    | none =>
      if st'.custom_start_cmd.isNone then .error "Failed to match a builder"
      else .ok st'

/-- `AppBuilder::gen_nix` (lines 150-188): each user package is qualified
with `pkgs.` and space-joined; the selected builder's `build_inputs` string
is spliced verbatim in front of it (nothing when no builder is selected). -/
def AppBuilder.gen_nix (st : AppBuilder) : Except String String :=
  let user_pkgs := " ".intercalate (st.pkgs.map (fun s => "pkgs." ++ s))
  let pkgs :=
    match st.builder with
    | some builder => builder.build_inputs st.app ++ " " ++ user_pkgs
    | none => user_pkgs
  .ok ("with import <nixpkgs> \x7b \x7d; [ " ++ pkgs ++ " ]\n")

/-- The `formatdoc!` literal of `AppBuilder::gen_dockerfile` (lines 216-238)
with its three holes made explicit. -/
def dockerfileTemplate (install_cmd build_cmd start_cmd : String) : String :=
  "FROM nixos/nix\n\nRUN nix-channel --update\n\nCOPY . /app\nWORKDIR /app\n\n# Load Nix environment\nRUN nix-env -if environment.nix\n\n# Install\nRUN " ++
    install_cmd ++ "\n\n# Build\nRUN " ++ build_cmd ++ "\n\n# Start\nCMD " ++
    start_cmd ++ "\n"

/-- `AppBuilder::gen_dockerfile` (lines 190-241): install is the builder's
value or empty (no override); build and start take the custom override when
present, otherwise the builder's suggestion or empty. Builder failures
propagate via `?`. -/
def AppBuilder.gen_dockerfile (st : AppBuilder) : Except String String := do
  let install_cmd ←
    match st.builder with
    | some builder => do pure ((← builder.install_cmd st.app).getD "")
    | none => pure ""
  let suggested_build_cmd ←
    match st.builder with
    | some builder => do pure ((← builder.suggested_build_cmd st.app).getD "")
    | none => pure ""
  let build_cmd := st.custom_build_cmd.getD suggested_build_cmd
  let suggested_start_cmd ←
    match st.builder with
    | some builder => do pure ((← builder.suggested_start_command st.app).getD "")
    | none => pure ""
  let start_cmd := st.custom_start_cmd.getD suggested_start_cmd
  pure (dockerfileTemplate install_cmd build_cmd start_cmd)

/-- Outcomes of the external world touched by `AppBuilder::build`: the two
child processes (outer layer: `spawn()` result; inner layer: `wait()`
result, carrying the child's exit status) and the four staging filesystem
operations. -/
structure BuildWorld where
  copy_spawn : Except String (Except String Nat)
  nix_create : Except String Unit
  nix_write : Except String Unit
  dockerfile_create : Except String Unit
  dockerfile_write : Except String Unit
  docker_spawn : Except String (Except String Nat)

/-- `AppBuilder::build` (lines 88-148). `spawn()?` propagates spawn
failures; `wait().context(..)?` propagates wait errors; the child's exit
status returned by a successful `wait()` is never inspected, so a non-zero
exit code does not stop the sequence. -/
def AppBuilder.build (st : AppBuilder) (w : BuildWorld) : Except String Unit := do
  let _nix_expression ← st.gen_nix
  let _dockerfile ← st.gen_dockerfile
  let copy_wait ← w.copy_spawn
  match copy_wait with
  | .error e => throw ("Copying app source to tmp dir: " ++ e)
  | .ok _status => pure ()
  match w.nix_create with
  | .error e => throw ("Creating Nix environment file: " ++ e)
  | .ok _ => pure ()
  match w.nix_write with
  | .error e => throw ("Unable to write Nix expression: " ++ e)
  | .ok _ => pure ()
  match w.dockerfile_create with
  | .error e => throw ("Creating Dockerfile file: " ++ e)
  | .ok _ => pure ()
  match w.dockerfile_write with
  | .error e => throw ("Writing Dockerfile: " ++ e)
  | .ok _ => pure ()
  let docker_wait ← w.docker_spawn
  match docker_wait with
  | .error e => throw ("Building image: " ++ e)
  | .ok _status => pure ()
  pure ()

/-! Helper lemmas about the detection loop. -/

lemma detectLoop_first_match (app : AppSource) (pre post : List Builder) (b : Builder)
    (hpre : ∀ x ∈ pre, x.detect app = .ok false)
    (hb : b.detect app = .ok true) :
    AppBuilder.detectLoop app (pre ++ b :: post) = .ok (some b) := by
  induction pre with
  | nil => simp [AppBuilder.detectLoop, hb]
  | cons x xs ih =>
    have hx : x.detect app = .ok false := hpre x (by simp)
    simp only [List.cons_append, AppBuilder.detectLoop, hx]
    exact ih (fun y hy => hpre y (by simp [hy]))

lemma detectQueried_first_match (app : AppSource) (pre post : List Builder) (b : Builder)
    (hpre : ∀ x ∈ pre, x.detect app = .ok false)
    (hb : b.detect app = .ok true) :
    AppBuilder.detectQueried app (pre ++ b :: post) = pre.map Builder.name ++ [b.name] := by
  induction pre with
  | nil => simp [AppBuilder.detectQueried, hb]
  | cons x xs ih =>
    have hx : x.detect app = .ok false := hpre x (by simp)
    simp only [List.cons_append, AppBuilder.detectQueried, hx, List.map_cons, List.append_eq]
    rw [ih (fun y hy => hpre y (by simp [hy]))]

lemma detectLoop_all_false (app : AppSource) (builders : List Builder)
    (hall : ∀ x ∈ builders, x.detect app = .ok false) :
    AppBuilder.detectLoop app builders = .ok none := by
  induction builders with
  | nil => rfl
  | cons x xs ih =>
    have hx : x.detect app = .ok false := hall x (by simp)
    simp only [AppBuilder.detectLoop, hx]
    exact ih (fun y hy => hall y (by simp [hy]))

lemma detectLoop_first_error (app : AppSource) (pre post : List Builder) (b : Builder)
    (e : String)
    (hpre : ∀ x ∈ pre, x.detect app = .ok false)
    (hb : b.detect app = .error e) :
    AppBuilder.detectLoop app (pre ++ b :: post) = .error e := by
  induction pre with
  | nil => simp [AppBuilder.detectLoop, hb]
  | cons x xs ih =>
    have hx : x.detect app = .ok false := hpre x (by simp)
    simp only [List.cons_append, AppBuilder.detectLoop, hx]
    exact ih (fun y hy => hpre y (by simp [hy]))

lemma detectQueried_first_error (app : AppSource) (pre post : List Builder) (b : Builder)
    (e : String)
    (hpre : ∀ x ∈ pre, x.detect app = .ok false)
    (hb : b.detect app = .error e) :
    AppBuilder.detectQueried app (pre ++ b :: post) = pre.map Builder.name ++ [b.name] := by
  induction pre with
  | nil => simp [AppBuilder.detectQueried, hb]
  | cons x xs ih =>
    have hx : x.detect app = .ok false := hpre x (by simp)
    simp only [List.cons_append, AppBuilder.detectQueried, hx, List.map_cons, List.append_eq]
    rw [ih (fun y hy => hpre y (by simp [hy]))]

/-! Concrete fixtures used by witnesses and counterexamples. -/

def sampleApp : AppSource :=
  { source := ["app"], paths := [["app", "package.json"]] }

def builderYes : Builder :=
  { name := "yes"
    detect := fun _ => .ok true
    build_inputs := fun _ => "pkgs.stdenv pkgs.nodejs"
    install_cmd := fun _ => .ok (some "npm ci")
    suggested_build_cmd := fun _ => .ok (some "npm run build")
    suggested_start_command := fun _ => .ok (some "npm start") }

def builderNo : Builder :=
  { name := "no"
    detect := fun _ => .ok false
    build_inputs := fun _ => ""
    install_cmd := fun _ => .ok none
    suggested_build_cmd := fun _ => .ok none
    suggested_start_command := fun _ => .ok none }

def builderErr : Builder :=
  { name := "err"
    detect := fun _ => .error "io error"
    build_inputs := fun _ => ""
    install_cmd := fun _ => .ok none
    suggested_build_cmd := fun _ => .ok none
    suggested_start_command := fun _ => .ok none }

def sampleState : AppBuilder :=
  { name := none
    app := sampleApp
    custom_build_cmd := none
    custom_start_cmd := none
    pkgs := ["cowsay"]
    builder := none }

/-- C1: for every ordered list of builders, the first whose `detect` returns
true becomes the selection and the loop stops there: the result is
independent of everything after the match, and the queried-builder trace
ends at the matching builder. -/
theorem detect_first_match_wins (st : AppBuilder) (pre post : List Builder) (b : Builder)
    (hpre : ∀ x ∈ pre, x.detect st.app = .ok false)
    (hb : b.detect st.app = .ok true) :
    AppBuilder.detect st (pre ++ b :: post) = .ok { st with builder := some b } ∧
    AppBuilder.detectQueried st.app (pre ++ b :: post) = pre.map Builder.name ++ [b.name] := by
  refine ⟨?_, detectQueried_first_match st.app pre post b hpre hb⟩
  unfold AppBuilder.detect
  rw [detectLoop_first_match st.app pre post b hpre hb]

/-- C1 witness: with a non-matching builder first, a matching builder second
and another matching builder third, the second is selected and the third is
never queried. -/
theorem detect_first_match_wins_witness :
    AppBuilder.detect sampleState ([builderNo] ++ builderYes :: [builderYes]) =
      .ok { sampleState with builder := some builderYes } ∧
    AppBuilder.detectQueried sampleState.app ([builderNo] ++ builderYes :: [builderYes]) =
      ["no", "yes"] := by
  have h := detect_first_match_wins sampleState [builderNo] [builderYes] builderYes
    (by intro x hx; simp only [List.mem_singleton] at hx; subst hx; rfl) rfl
  exact h

/-- C2: when no builder matches, detection fails exactly when there is no
custom start command; with a custom start command it succeeds, leaving the
selection at none. -/
theorem detect_no_match_iff (st : AppBuilder) (builders : List Builder)
    (hall : ∀ x ∈ builders, x.detect st.app = .ok false)
    (hfresh : st.builder = none) :
    (AppBuilder.detect st builders = .error "Failed to match a builder" ↔
      st.custom_start_cmd = none) ∧
    (st.custom_start_cmd ≠ none →
      AppBuilder.detect st builders = .ok st ∧ st.builder = none) := by
  have hred : AppBuilder.detect st builders =
      (match st.builder with
       | some _ => .ok st
       | none =>
         if st.custom_start_cmd.isNone then .error "Failed to match a builder"
         else .ok st) := by
    unfold AppBuilder.detect
    rw [detectLoop_all_false st.app builders hall]
  rw [hred, hfresh]
  cases hcs : st.custom_start_cmd with
  | none => simp
  | some c => simp [hfresh]

/-- C2 witness: applying the theorem at a state without a custom start
command (detection fails) requires only its error direction; here both parts
are instantiated at concrete states. -/
theorem detect_no_match_iff_witness :
    AppBuilder.detect sampleState [builderNo] = .error "Failed to match a builder" ∧
    AppBuilder.detect { sampleState with custom_start_cmd := some "run" } [builderNo] =
      .ok { sampleState with custom_start_cmd := some "run" } := by
  have h1 := detect_no_match_iff sampleState [builderNo]
    (by intro x hx; simp only [List.mem_singleton] at hx; subst hx; rfl) rfl
  have h2 := detect_no_match_iff { sampleState with custom_start_cmd := some "run" } [builderNo]
    (by intro x hx; simp only [List.mem_singleton] at hx; subst hx; rfl) rfl
  exact ⟨h1.1.mpr rfl, (h2.2 (by simp)).1⟩

/-- C9: a failing `detect` call aborts the whole pass with that error, no
matter its position: later builders are never queried and no selection is
produced. -/
theorem detect_error_aborts (st : AppBuilder) (pre post : List Builder) (b : Builder)
    (e : String)
    (hpre : ∀ x ∈ pre, x.detect st.app = .ok false)
    (hb : b.detect st.app = .error e) :
    AppBuilder.detect st (pre ++ b :: post) = .error e ∧
    AppBuilder.detectQueried st.app (pre ++ b :: post) = pre.map Builder.name ++ [b.name] := by
  refine ⟨?_, detectQueried_first_error st.app pre post b e hpre hb⟩
  unfold AppBuilder.detect
  rw [detectLoop_first_error st.app pre post b e hpre hb]

/-- C9 witness: an erroring builder in second position aborts detection even
though a matching builder follows it, and the follower is never queried. -/
theorem detect_error_aborts_witness :
    AppBuilder.detect sampleState ([builderNo] ++ builderErr :: [builderYes]) =
      .error "io error" ∧
    AppBuilder.detectQueried sampleState.app ([builderNo] ++ builderErr :: [builderYes]) =
      ["no", "err"] := by
  have h := detect_error_aborts sampleState [builderNo] [builderYes] builderErr "io error"
    (by intro x hx; simp only [List.mem_singleton] at hx; subst hx; rfl) rfl
  exact h

/-! Helper lemmas about `includes_file`. -/

lemma includes_file_go_iff (n : String) (paths : List PathBuf)
    (htot : ∀ p ∈ paths, (file_name p).isSome) :
    AppSource.includes_file.go n paths = some true ↔
      ∃ p ∈ paths, file_name p = some n := by
  induction paths with
  | nil => simp [AppSource.includes_file.go]
  | cons p rest ih =>
    have hp : (file_name p).isSome := htot p (by simp)
    cases hfn : file_name p with
    | none => rw [hfn] at hp; simp at hp
    | some f =>
      simp only [AppSource.includes_file.go, hfn]
      by_cases hf : f = n
      · subst hf; simp [hfn]
      · rw [if_neg hf, ih (fun q hq => htot q (by simp [hq]))]
        simp [hfn, hf]

lemma includes_file_go_isSome (n : String) (paths : List PathBuf)
    (htot : ∀ p ∈ paths, (file_name p).isSome) :
    (AppSource.includes_file.go n paths).isSome := by
  induction paths with
  | nil => rfl
  | cons p rest ih =>
    have hp : (file_name p).isSome := htot p (by simp)
    cases hfn : file_name p with
    | none => rw [hfn] at hp; simp at hp
    | some f =>
      simp only [AppSource.includes_file.go, hfn]
      by_cases hf : f = n
      · simp [hf]
      · rw [if_neg hf]
        exact ih (fun q hq => htot q (by simp [hq]))

lemma file_name_pathJoin (base : PathBuf) (e : String) (he : validEntryName e) :
    file_name (pathJoin base e) = some e := by
  unfold file_name pathJoin
  rw [List.getLast?_concat]
  show (if e = ".." ∨ e = "" then none else some e) = some e
  rw [if_neg (not_or.mpr ⟨he.2.2, he.1⟩)]

/-- C8: on a snapshot whose captured entries all have a defined final path
component, `includes_file name` answers `some true` exactly when some entry's
final component equals `name`, and `some false` exactly when none does —
String equality, hence case-sensitive with no partial matching, and only the
top-level entries are inspected. -/
theorem includes_file_exact_match (app : AppSource) (n : String)
    (htot : ∀ p ∈ app.paths, (file_name p).isSome) :
    (app.includes_file n = some true ↔ ∃ p ∈ app.paths, file_name p = some n) ∧
    (app.includes_file n = some false ↔ ¬ ∃ p ∈ app.paths, file_name p = some n) := by
  have hiff := includes_file_go_iff n app.paths htot
  have hsome := includes_file_go_isSome n app.paths htot
  have hgo : app.includes_file n = AppSource.includes_file.go n app.paths := rfl
  refine ⟨by rw [hgo]; exact hiff, ?_⟩
  rcases Option.isSome_iff_exists.mp hsome with ⟨b, hb⟩
  rw [hb] at hiff
  rw [hgo, hb]
  cases b with
  | false =>
    have hne : ¬ ∃ p ∈ app.paths, file_name p = some n := by
      intro hex
      have := hiff.mpr hex
      simp at this
    simp [hne]
  | true =>
    have hex : ∃ p ∈ app.paths, file_name p = some n := hiff.mp rfl
    simp [hex]

/-- C8 witness: on the sample snapshot, the exact name is found, a proper
substring of it is not, and a case-variant is not. -/
theorem includes_file_exact_match_witness :
    sampleApp.includes_file "package.json" = some true ∧
    sampleApp.includes_file "package" = some false ∧
    sampleApp.includes_file "Package.json" = some false := by
  have h1 := includes_file_exact_match sampleApp "package.json" (by decide)
  have h2 := includes_file_exact_match sampleApp "package" (by decide)
  have h3 := includes_file_exact_match sampleApp "Package.json" (by decide)
  exact ⟨h1.1.mpr ⟨["app", "package.json"], by simp [sampleApp], by decide⟩,
         h2.2.mpr (by decide), h3.2.mpr (by decide)⟩

/-- C10: every snapshot built by `AppBuilder::new` joins the source root
with a directory-entry name, and entry names are non-empty and never the
special `.`/`..` entries, so every captured path has a defined final
component and `includes_file` never reaches the `unwrap` panic. -/
theorem new_includes_file_total (nm : Option String) (source : PathBuf)
    (cb cs : Option String) (pkgs entries : List String) (st : AppBuilder) (n : String)
    (hval : ∀ e ∈ entries, validEntryName e)
    (hnew : AppBuilder.new nm source cb cs pkgs (.ok entries) = .ok st) :
    (st.app.includes_file n).isSome := by
  have hst : st.app.paths = entries.map (pathJoin source) := by
    unfold AppBuilder.new at hnew
    injection hnew with h
    rw [← h]
  have htot : ∀ p ∈ st.app.paths, (file_name p).isSome := by
    intro p hp
    rw [hst] at hp
    rcases List.mem_map.mp hp with ⟨e, he, rfl⟩
    rw [file_name_pathJoin source e (hval e he)]
    rfl
  exact includes_file_go_isSome n st.app.paths htot

/-- The state produced by `AppBuilder::new` on a one-entry directory. -/
def sampleNewState : AppBuilder :=
  { name := none
    app := { source := ["app"], paths := [["app", "package.json"]] }
    custom_build_cmd := none
    custom_start_cmd := none
    pkgs := []
    builder := none }

/-- C10 witness: the totality theorem applied to a concrete `new` result and
a query name that is absent from the directory. -/
theorem new_includes_file_total_witness :
    (sampleNewState.app.includes_file "missing").isSome :=
  new_includes_file_total none ["app"] none none [] ["package.json"] sampleNewState
    "missing" (by decide) rfl

/-- A string contains the given fragments, in the given order, possibly with
gaps between them. -/
def containsInOrder (s : String) : List String → Prop
  | [] => True
  | n :: ns => ∃ a b, s = a ++ (n ++ b) ∧ containsInOrder b ns

/-- The rendered Dockerfile always carries the seven clauses in their fixed
order, whatever the three substituted commands are. -/
lemma dockerfileTemplate_containsInOrder (i bc sc : String) :
    containsInOrder (dockerfileTemplate i bc sc)
      ["FROM nixos/nix", "RUN nix-channel --update", "COPY . /app\nWORKDIR /app",
       "RUN nix-env -if environment.nix", "RUN " ++ i, "RUN " ++ bc, "CMD " ++ sc] := by
  refine ⟨"", ?_, ?_, ?_⟩
  · exact "\n\nRUN nix-channel --update\n\nCOPY . /app\nWORKDIR /app\n\n# Load Nix environment\nRUN nix-env -if environment.nix\n\n# Install\nRUN " ++ i ++ "\n\n# Build\nRUN " ++ bc ++ "\n\n# Start\nCMD " ++ sc ++ "\n"
  · unfold dockerfileTemplate
    simp only [String.append_assoc]
    rfl
  refine ⟨"\n\n", ?_, ?_, ?_⟩
  · exact "\n\nCOPY . /app\nWORKDIR /app\n\n# Load Nix environment\nRUN nix-env -if environment.nix\n\n# Install\nRUN " ++ i ++ "\n\n# Build\nRUN " ++ bc ++ "\n\n# Start\nCMD " ++ sc ++ "\n"
  · simp only [String.append_assoc]
    rfl
  refine ⟨"\n\n", ?_, ?_, ?_⟩
  · exact "\n\n# Load Nix environment\nRUN nix-env -if environment.nix\n\n# Install\nRUN " ++ i ++ "\n\n# Build\nRUN " ++ bc ++ "\n\n# Start\nCMD " ++ sc ++ "\n"
  · simp only [String.append_assoc]
    rfl
  refine ⟨"\n\n# Load Nix environment\n", ?_, ?_, ?_⟩
  · exact "\n\n# Install\nRUN " ++ i ++ "\n\n# Build\nRUN " ++ bc ++ "\n\n# Start\nCMD " ++ sc ++ "\n"
  · simp only [String.append_assoc]
    rfl
  refine ⟨"\n\n# Install\n", ?_, ?_, ?_⟩
  · exact "\n\n# Build\nRUN " ++ bc ++ "\n\n# Start\nCMD " ++ sc ++ "\n"
  · simp only [String.append_assoc]
    rfl
  refine ⟨"\n\n# Build\n", ?_, ?_, ?_⟩
  · exact "\n\n# Start\nCMD " ++ sc ++ "\n"
  · simp only [String.append_assoc]
    rfl
  refine ⟨"\n\n# Start\n", "\n", ?_, trivial⟩
  simp only [String.append_assoc]
  rfl

/-- The install command is undetermined: the selected builder reports none
(or no builder is selected). There is no user-supplied install override. -/
def installUndetermined (st : AppBuilder) : Prop :=
  match st.builder with
  | some b => b.install_cmd st.app = .ok none
  | none => True

/-- The build command is undetermined: no user override and the selected
builder suggests none (or no builder is selected). -/
def buildUndetermined (st : AppBuilder) : Prop :=
  st.custom_build_cmd = none ∧
    match st.builder with
    | some b => b.suggested_build_cmd st.app = .ok none
    | none => True

/-- The start command is undetermined: no user override and the selected
builder suggests none (or no builder is selected). -/
def startUndetermined (st : AppBuilder) : Prop :=
  st.custom_start_cmd = none ∧
    match st.builder with
    | some b => b.suggested_start_command st.app = .ok none
    | none => True

/-! Shape lemmas for `gen_dockerfile`. -/

lemma gen_dockerfile_builder_none (st : AppBuilder) (hb : st.builder = none) :
    st.gen_dockerfile =
      .ok (dockerfileTemplate "" (st.custom_build_cmd.getD "") (st.custom_start_cmd.getD "")) := by
  unfold AppBuilder.gen_dockerfile
  rw [hb]
  rfl

lemma gen_dockerfile_builder_some (st : AppBuilder) (b : Builder) (io sbo sso : Option String)
    (hb : st.builder = some b) (hic : b.install_cmd st.app = .ok io)
    (hsb : b.suggested_build_cmd st.app = .ok sbo)
    (hss : b.suggested_start_command st.app = .ok sso) :
    st.gen_dockerfile =
      .ok (dockerfileTemplate (io.getD "")
        (st.custom_build_cmd.getD (sbo.getD ""))
        (st.custom_start_cmd.getD (sso.getD ""))) := by
  unfold AppBuilder.gen_dockerfile
  rw [hb]
  simp only [hic, hsb, hss]
  rfl

lemma gen_dockerfile_install_error (st : AppBuilder) (b : Builder) (e : String)
    (hb : st.builder = some b) (hic : b.install_cmd st.app = .error e) :
    st.gen_dockerfile = .error e := by
  unfold AppBuilder.gen_dockerfile
  rw [hb]
  simp only [hic]
  rfl

lemma gen_dockerfile_sbuild_error (st : AppBuilder) (b : Builder) (io : Option String)
    (e : String) (hb : st.builder = some b) (hic : b.install_cmd st.app = .ok io)
    (hsb : b.suggested_build_cmd st.app = .error e) :
    st.gen_dockerfile = .error e := by
  unfold AppBuilder.gen_dockerfile
  rw [hb]
  simp only [hic, hsb]
  rfl

lemma gen_dockerfile_sstart_error (st : AppBuilder) (b : Builder) (io sbo : Option String)
    (e : String) (hb : st.builder = some b) (hic : b.install_cmd st.app = .ok io)
    (hsb : b.suggested_build_cmd st.app = .ok sbo)
    (hss : b.suggested_start_command st.app = .error e) :
    st.gen_dockerfile = .error e := by
  unfold AppBuilder.gen_dockerfile
  rw [hb]
  simp only [hic, hsb, hss]
  rfl

/-- C5: every successfully rendered Dockerfile is an instance of the fixed
template: the seven clauses appear in their fixed order, and an undetermined
install, build, or start command is rendered as the empty string inside its
clause rather than the clause being omitted. -/
theorem gen_dockerfile_seven_clauses (st : AppBuilder) (out : String)
    (hok : st.gen_dockerfile = .ok out) :
    ∃ i bc sc,
      out = dockerfileTemplate i bc sc ∧
      containsInOrder out
        ["FROM nixos/nix", "RUN nix-channel --update", "COPY . /app\nWORKDIR /app",
         "RUN nix-env -if environment.nix", "RUN " ++ i, "RUN " ++ bc, "CMD " ++ sc] ∧
      (installUndetermined st → i = "") ∧
      (buildUndetermined st → bc = "") ∧
      (startUndetermined st → sc = "") := by
  cases hbv : st.builder with
  | none =>
    rw [gen_dockerfile_builder_none st hbv] at hok
    injection hok with h
    subst h
    refine ⟨"", st.custom_build_cmd.getD "", st.custom_start_cmd.getD "", rfl,
      dockerfileTemplate_containsInOrder _ _ _, fun _ => rfl, ?_, ?_⟩
    · intro hu
      rw [hu.1]
      rfl
    · intro hu
      rw [hu.1]
      rfl
  | some b =>
    cases hic : b.install_cmd st.app with
    | error e =>
      rw [gen_dockerfile_install_error st b e hbv hic] at hok
      simp at hok
    | ok io =>
      cases hsb : b.suggested_build_cmd st.app with
      | error e =>
        rw [gen_dockerfile_sbuild_error st b io e hbv hic hsb] at hok
        simp at hok
      | ok sbo =>
        cases hss : b.suggested_start_command st.app with
        | error e =>
          rw [gen_dockerfile_sstart_error st b io sbo e hbv hic hsb hss] at hok
          simp at hok
        | ok sso =>
          rw [gen_dockerfile_builder_some st b io sbo sso hbv hic hsb hss] at hok
          injection hok with h
          subst h
          refine ⟨io.getD "", st.custom_build_cmd.getD (sbo.getD ""),
            st.custom_start_cmd.getD (sso.getD ""), rfl,
            dockerfileTemplate_containsInOrder _ _ _, ?_, ?_, ?_⟩
          · intro hu
            unfold installUndetermined at hu
            simp only [hbv] at hu
            rw [hic] at hu
            injection hu with hio
            rw [hio]
            rfl
          · intro hu
            unfold buildUndetermined at hu
            simp only [hbv] at hu
            rw [hsb] at hu
            rw [hu.1]
            have hsbo : sbo = none := by
              have := hu.2
              injection this
            rw [hsbo]
            rfl
          · intro hu
            unfold startUndetermined at hu
            simp only [hbv] at hu
            rw [hss] at hu
            rw [hu.1]
            have hsso : sso = none := by
              have := hu.2
              injection this
            rw [hsso]
            rfl

/-- C5 witness: on the sample state (no builder selected, no overrides) the
rendered Dockerfile instantiates the template with three empty commands. -/
theorem gen_dockerfile_seven_clauses_witness :
    ∃ i bc sc,
      dockerfileTemplate "" "" "" = dockerfileTemplate i bc sc ∧
      containsInOrder (dockerfileTemplate "" "" "")
        ["FROM nixos/nix", "RUN nix-channel --update", "COPY . /app\nWORKDIR /app",
         "RUN nix-env -if environment.nix", "RUN " ++ i, "RUN " ++ bc, "CMD " ++ sc] ∧
      (installUndetermined sampleState → i = "") ∧
      (buildUndetermined sampleState → bc = "") ∧
      (startUndetermined sampleState → sc = "") :=
  gen_dockerfile_seven_clauses sampleState (dockerfileTemplate "" "" "") rfl

/-- C6: in the rendered Dockerfile, the build and start clauses take the
user override when present and otherwise the builder suggestion or empty,
while the install clause is always the builder's value or empty, with no
override path. -/
theorem gen_dockerfile_precedence (st : AppBuilder) :
    (∀ b io sbo sso,
      st.builder = some b →
      b.install_cmd st.app = .ok io →
      b.suggested_build_cmd st.app = .ok sbo →
      b.suggested_start_command st.app = .ok sso →
      st.gen_dockerfile =
        .ok (dockerfileTemplate (io.getD "")
          (st.custom_build_cmd.getD (sbo.getD ""))
          (st.custom_start_cmd.getD (sso.getD ""))) ∧
      (∀ u, st.custom_build_cmd = some u → st.custom_build_cmd.getD (sbo.getD "") = u) ∧
      (∀ u, st.custom_start_cmd = some u → st.custom_start_cmd.getD (sso.getD "") = u) ∧
      (st.custom_build_cmd = none → st.custom_build_cmd.getD (sbo.getD "") = sbo.getD "") ∧
      (st.custom_start_cmd = none → st.custom_start_cmd.getD (sso.getD "") = sso.getD "")) ∧
    (st.builder = none →
      st.gen_dockerfile =
        .ok (dockerfileTemplate "" (st.custom_build_cmd.getD "") (st.custom_start_cmd.getD ""))) := by
  constructor
  · intro b io sbo sso hb hic hsb hss
    refine ⟨gen_dockerfile_builder_some st b io sbo sso hb hic hsb hss, ?_, ?_, ?_, ?_⟩
    · intro u hu; rw [hu]; rfl
    · intro u hu; rw [hu]; rfl
    · intro hu; rw [hu]; rfl
    · intro hu; rw [hu]; rfl
  · exact gen_dockerfile_builder_none st

/-- C6 witness: with builder-suggested commands and user build/start
overrides, the overrides land in the build and start clauses while the
install clause keeps the builder's command. -/
theorem gen_dockerfile_precedence_witness :
    AppBuilder.gen_dockerfile
      { sampleState with builder := some builderYes,
                         custom_build_cmd := some "my build",
                         custom_start_cmd := some "my start" } =
      .ok (dockerfileTemplate "npm ci" "my build" "my start") := by
  have h := (gen_dockerfile_precedence
    { sampleState with builder := some builderYes,
                       custom_build_cmd := some "my build",
                       custom_start_cmd := some "my start" }).1
    builderYes (some "npm ci") (some "npm run build") (some "npm start") rfl rfl rfl rfl
  exact h.1

/-! Environment-rendering helpers mirroring the bindings of `gen_nix`. -/

/-- The `user_pkgs` binding of `gen_nix`: the extra packages, each qualified
with the fixed `pkgs.` prefix, space-joined in their original order. -/
def userPkgsPart (st : AppBuilder) : String :=
  " ".intercalate (st.pkgs.map (fun s => "pkgs." ++ s))

/-- The `pkgs` binding of `gen_nix`: the selected builder's `build_inputs`
string spliced verbatim in front of the user packages. -/
def envBody (st : AppBuilder) : String :=
  match st.builder with
  | some builder => builder.build_inputs st.app ++ " " ++ userPkgsPart st
  | none => userPkgsPart st

/-- Modelled from the spec: a Builder Capability whose `buildInputs` is a
list of required environment package names (§4.2); at the trait boundary the
core receives them as the space-joined names. The concrete builder
implementations are outside src/. -/
def specPkgNamesBuilder (names : List String) : Builder :=
  { name := "spec"
    detect := fun _ => .ok true
    build_inputs := fun _ => " ".intercalate names
    install_cmd := fun _ => .ok none
    suggested_build_cmd := fun _ => .ok none
    suggested_start_command := fun _ => .ok none }

/-- Modelled from the spec (§4.4 environment rendering): content in which
builder inputs and extra packages alike are each qualified under the fixed
namespace prefix, builder inputs first. -/
def specQualifiedEnv (builderNames userPkgs : List String) : String :=
  "with import <nixpkgs> \x7b \x7d; [ " ++
    " ".intercalate ((builderNames ++ userPkgs).map (fun s => "pkgs." ++ s)) ++ " ]\n"

/-- A state whose selected builder declares the single package name
`nodejs`, with one user extra package. -/
def c4State : AppBuilder :=
  { sampleState with builder := some (specPkgNamesBuilder ["nodejs"]) }

/-- C4 counterexample: the renderer leaves the builder-declared package name
`nodejs` unqualified — the output differs from the all-qualified rendering
the claim describes, and the offending token is not of the form
`pkgs. ++ _`. -/
theorem gen_nix_qualifies_counterexample :
    AppBuilder.gen_nix c4State =
      .ok "with import <nixpkgs> \x7b \x7d; [ nodejs pkgs.cowsay ]\n" ∧
    specQualifiedEnv ["nodejs"] ["cowsay"] =
      "with import <nixpkgs> \x7b \x7d; [ pkgs.nodejs pkgs.cowsay ]\n" ∧
    AppBuilder.gen_nix c4State ≠ .ok (specQualifiedEnv ["nodejs"] ["cowsay"]) ∧
    ¬ ∃ p : String, "nodejs" = "pkgs." ++ p := by
  refine ⟨rfl, rfl, ?_, ?_⟩
  · intro h
    have h1 : (Except.ok "with import <nixpkgs> \x7b \x7d; [ nodejs pkgs.cowsay ]\n" :
        Except String String) =
        .ok "with import <nixpkgs> \x7b \x7d; [ pkgs.nodejs pkgs.cowsay ]\n" := h
    have h2 := Except.ok.inj h1
    exact absurd h2 (by decide)
  · rintro ⟨p, hp⟩
    have hd : ("nodejs" : String).data = ("pkgs." : String).data ++ p.data := by
      rw [hp]
      exact String.data_append _ _
    have ht : ("nodejs" : String).data.take 5 =
        (("pkgs." : String).data ++ p.data).take 5 := by rw [hd]
    have hl : (("pkgs." : String).data ++ p.data).take 5 = ("pkgs." : String).data := by
      have hlen : ("pkgs." : String).data.length = 5 := by decide
      rw [← hlen, List.take_left]
    rw [hl] at ht
    exact absurd ht (by decide)

/-- C4 amended: the rendered environment text is the fixed wrapper around a
body in which every extra package of the Build Request is qualified under
the fixed `pkgs.` prefix, in original order, while the selected builder's
`build_inputs` string precedes them verbatim, without added qualification. -/
theorem gen_nix_amended (st : AppBuilder) :
    st.gen_nix = .ok ("with import <nixpkgs> \x7b \x7d; [ " ++ envBody st ++ " ]\n") ∧
    (st.builder = none → envBody st = userPkgsPart st) ∧
    (∀ b, st.builder = some b →
      envBody st = b.build_inputs st.app ++ " " ++ userPkgsPart st) ∧
    userPkgsPart st = " ".intercalate (st.pkgs.map (fun s => "pkgs." ++ s)) ∧
    (∀ w ∈ st.pkgs.map (fun s => "pkgs." ++ s), ∃ p ∈ st.pkgs, w = "pkgs." ++ p) := by
  refine ⟨rfl, ?_, ?_, rfl, ?_⟩
  · intro h
    unfold envBody
    rw [h]
  · intro b hb
    unfold envBody
    rw [hb]
  · intro w hw
    rcases List.mem_map.mp hw with ⟨p, hp, rfl⟩
    exact ⟨p, hp, rfl⟩

/-- C4 amended witness: at the concrete state, the builder part is spliced
verbatim in front of the qualified user packages. -/
theorem gen_nix_amended_witness :
    AppBuilder.gen_nix c4State =
      .ok ("with import <nixpkgs> \x7b \x7d; [ " ++ envBody c4State ++ " ]\n") ∧
    envBody c4State =
      (specPkgNamesBuilder ["nodejs"]).build_inputs c4State.app ++ " " ++ userPkgsPart c4State :=
  ⟨(gen_nix_amended c4State).1, (gen_nix_amended c4State).2.2.1 _ rfl⟩

/-- A builder whose `build_inputs` depends on the snapshot it is given. -/
def snapshotBuilder : Builder :=
  { name := "snap"
    detect := fun _ => .ok true
    build_inputs := fun app => if app.paths.isEmpty then "pkgs.a" else "pkgs.b"
    install_cmd := fun _ => .ok none
    suggested_build_cmd := fun _ => .ok none
    suggested_start_command := fun _ => .ok none }

def c7StateA : AppBuilder :=
  { name := none
    app := { source := ["app"], paths := [] }
    custom_build_cmd := none
    custom_start_cmd := none
    pkgs := []
    builder := some snapshotBuilder }

def c7StateB : AppBuilder :=
  { c7StateA with app := { source := ["app"], paths := [["app", "x"]] } }

/-- C7 counterexample: two states with the same Builder Selection and the
same extra-package list but different snapshots render different
environment texts, because `build_inputs` receives the snapshot. -/
theorem gen_nix_snapshot_dependent_counterexample :
    c7StateA.builder = c7StateB.builder ∧
    c7StateA.pkgs = c7StateB.pkgs ∧
    AppBuilder.gen_nix c7StateA ≠ AppBuilder.gen_nix c7StateB := by
  refine ⟨rfl, rfl, ?_⟩
  intro h
  have h1 : (Except.ok "with import <nixpkgs> \x7b \x7d; [ pkgs.a  ]\n" :
      Except String String) =
      .ok "with import <nixpkgs> \x7b \x7d; [ pkgs.b  ]\n" := h
  have h2 := Except.ok.inj h1
  exact absurd h2 (by decide)

/-- C7 amended: environment rendering is a pure function of the Builder
Selection, the snapshot, and the extra-package list — the output ignores the
name and the command overrides — and its body keeps builder inputs before
the order-preserved, duplicate-preserving qualified user packages. -/
theorem gen_nix_pure (s1 s2 : AppBuilder)
    (hb : s1.builder = s2.builder) (ha : s1.app = s2.app) (hp : s1.pkgs = s2.pkgs) :
    s1.gen_nix = s2.gen_nix ∧
    s1.gen_nix = .ok ("with import <nixpkgs> \x7b \x7d; [ " ++ envBody s1 ++ " ]\n") := by
  refine ⟨?_, rfl⟩
  unfold AppBuilder.gen_nix
  rw [hb, ha, hp]

def c7w1 : AppBuilder := { sampleState with builder := some builderYes }

def c7w2 : AppBuilder :=
  { c7w1 with name := some "other", custom_build_cmd := some "b", custom_start_cmd := some "s" }

/-- C7 amended witness: two states identical in builder, snapshot and
packages but differing in name and overrides render byte-identical
environment texts. -/
theorem gen_nix_pure_witness :
    AppBuilder.gen_nix c7w1 = AppBuilder.gen_nix c7w2 :=
  (gen_nix_pure c7w1 c7w2 rfl rfl rfl).1

/-! External-process outcomes for `AppBuilder::build`. -/

/-- Both children spawn, both exit with status 1; all file writes succeed. -/
def worldNonzeroExits : BuildWorld :=
  { copy_spawn := .ok (.ok 1)
    nix_create := .ok ()
    nix_write := .ok ()
    dockerfile_create := .ok ()
    dockerfile_write := .ok ()
    docker_spawn := .ok (.ok 1) }

def worldCopySpawnFail : BuildWorld :=
  { worldNonzeroExits with copy_spawn := .error "No such file or directory" }

def worldDockerSpawnFail : BuildWorld :=
  { worldNonzeroExits with docker_spawn := .error "No such file or directory" }

/-- C3: evaluating `build` at the failing input. A spawn failure of either
child aborts the orchestration, but a child that spawns and exits with the
non-zero status 1 is treated as success: the exit status returned by
`wait()` is never inspected, so the orchestration completes and reports
success instead of failing. -/
theorem build_ignores_exit_status :
    AppBuilder.build sampleState worldNonzeroExits = .ok () ∧
    AppBuilder.build sampleState worldCopySpawnFail = .error "No such file or directory" ∧
    AppBuilder.build sampleState worldDockerSpawnFail = .error "No such file or directory" :=
  ⟨rfl, rfl, rfl⟩
